import Mathlib

/-!
# Verification of the party-way event check-in service (`src/api/server.js`)

Shallow embedding of the single-file Express service.  The in-memory store is a
`List Event`; each HTTP handler becomes a pure Lean function from the store (and
the request data) to a response, and the one mutating handler (`POST
/events/:id/checkin`) additionally returns the updated store.  JavaScript
peculiarities that the handlers rely on are modelled explicitly:

* `parseInt(s, 10)` returns `Option Int` (`none` = `NaN`);
* `Math.max(NaN, 1)` is `NaN`, so the NaN propagates (`Option Int` arithmetic);
* `Array.prototype.slice(start, end)` converts `NaN` endpoints to `0` and
  clamps/wraps negative indices;
* string truthiness: `if (s)` is false exactly for `null`/`undefined`/`""`
  (`jsTruthy` on `Option String`);
* `String.prototype.normalize('NFD')` followed by stripping `̀-ͯ`
  and `toLowerCase()`: NFD decomposition is modelled by a character table
  covering the Latin-1 repertoire used by the data (identity elsewhere), and
  lowercasing covers ASCII plus the Latin-1 block;
* `localeCompare` on the already-normalized (lowercase, accent-free) names is
  modelled as code-point lexicographic comparison, and
  `Array.prototype.sort(cmp)` as a stable sort (`List.insertionSort`) by the
  relation `le a b := cmp a b ≠ .gt`.
-/

namespace PartyWay

/-! ## Data model -/

/-- An attendee record: `{id, name, email, document, checkedInAt}` where
`checkedInAt` is a nullable ISO-8601 string. -/
structure Attendee where
  id : String
  name : String
  email : String
  document : String
  checkedInAt : Option String
deriving Repr, DecidableEq, Inhabited

/-- An event record owning its attendees. -/
structure Event where
  id : String
  title : String
  startsAt : String
  endsAt : String
  location : String
  attendees : List Attendee
deriving Repr, DecidableEq, Inhabited

/-- Derived statistics, `buildStats` output. -/
structure Stats where
  total : Nat
  checkedIn : Nat
  absent : Nat
deriving Repr, DecidableEq, Inhabited

/-- Shape returned by `GET /events` (per element) and `GET /events/:id`. -/
structure EventPayload where
  id : String
  title : String
  startsAt : String
  endsAt : String
  location : String
  stats : Stats
deriving Repr, DecidableEq, Inhabited

/-! ## JavaScript semantics helpers -/

/-- JS truthiness of a nullable string: `null`/`undefined` and `""` are falsy. -/
def jsTruthy : Option String → Bool
  | none => false
  | some s => s ≠ ""

/-- Whitespace skipped by `parseInt` (the common StrWhiteSpace characters). -/
def isJsWhitespace (c : Char) : Bool :=
  c = ' ' || c = '\t' || c = '\n' || c = '\r' || c.toNat = 11 || c.toNat = 12 || c.toNat = 0xA0

/-- Numeric value of a non-empty string of decimal digits. -/
def digitsToNat (ds : List Char) : Nat :=
  ds.foldl (fun acc c => acc * 10 + (c.toNat - '0'.toNat)) 0

/-- Longest digit prefix, then its value; `none` when there is no digit
(the `NaN` outcome). -/
def parseDigits (cs : List Char) : Option Nat :=
  let ds := cs.takeWhile (fun c => c.isDigit)
  if ds.isEmpty then none else some (digitsToNat ds)

/-- `parseInt(s, 10)`: skip leading whitespace, optional sign, longest digit
prefix; `none` models `NaN`. -/
def parseInt10 (s : String) : Option Int :=
  match s.data.dropWhile isJsWhitespace with
  | '-' :: rest => (parseDigits rest).map (fun n => -(n : Int))
  | '+' :: rest => (parseDigits rest).map (fun n => (n : Int))
  | cs => (parseDigits cs).map (fun n => (n : Int))

/-- `q || d` for an optional query-string parameter: `undefined` and `""` fall
back to the default. -/
def jsOrDefault (q : Option String) (d : String) : String :=
  match q with
  | none => d
  | some s => if s = "" then d else s

/-- `Math.max(x, m)` where `x` may be `NaN` (then the result is `NaN`). -/
def jsMax (x : Option Int) (m : Int) : Option Int :=
  x.map (fun v => max v m)

/-- NaN-propagating subtraction of a constant. -/
def oSub (a : Option Int) (b : Int) : Option Int := a.map (· - b)

/-- NaN-propagating multiplication. -/
def oMul (a b : Option Int) : Option Int :=
  match a, b with
  | some x, some y => some (x * y)
  | _, _ => none

/-- NaN-propagating addition. -/
def oAdd (a b : Option Int) : Option Int :=
  match a, b with
  | some x, some y => some (x + y)
  | _, _ => none

/-- `ToIntegerOrInfinity` on a possibly-NaN argument: `NaN` becomes `0`. -/
def toIntOrZero (o : Option Int) : Int := o.getD 0

/-- Clamp a slice endpoint to `[0, len]`, counting negative values from the
end, as `Array.prototype.slice` does. -/
def sliceIndex (len : Nat) (i : Int) : Nat :=
  if i < 0 then (len + i).toNat else min i.toNat len

/-- `xs.slice(s, e)` with possibly-NaN endpoints. -/
def jsSlice {α : Type} (xs : List α) (s e : Option Int) : List α :=
  let len := xs.length
  let s' := sliceIndex len (toIntOrZero s)
  let e' := sliceIndex len (toIntOrZero e)
  (xs.take e').drop s'

/-! ## `normalize` -/

/-- A combining diacritical mark, the range `[̀-ͯ]` stripped by
`normalize`. -/
def isCombiningMark (c : Char) : Bool :=
  0x300 ≤ c.toNat && c.toNat ≤ 0x36f

/-- NFD decomposition table for the Latin-1 letters used by the data set
(identity on every other character).  Each accented letter decomposes into its
base letter followed by the combining mark. -/
def nfdChar (c : Char) : List Char :=
  match c with
  | 'à' => ['a', '̀'] | 'á' => ['a', '́'] | 'â' => ['a', '̂']
  | 'ã' => ['a', '̃'] | 'ä' => ['a', '̈'] | 'å' => ['a', '̊']
  | 'ç' => ['c', '̧']
  | 'è' => ['e', '̀'] | 'é' => ['e', '́'] | 'ê' => ['e', '̂']
  | 'ë' => ['e', '̈']
  | 'ì' => ['i', '̀'] | 'í' => ['i', '́'] | 'î' => ['i', '̂']
  | 'ï' => ['i', '̈']
  | 'ñ' => ['n', '̃']
  | 'ò' => ['o', '̀'] | 'ó' => ['o', '́'] | 'ô' => ['o', '̂']
  | 'õ' => ['o', '̃'] | 'ö' => ['o', '̈']
  | 'ù' => ['u', '̀'] | 'ú' => ['u', '́'] | 'û' => ['u', '̂']
  | 'ü' => ['u', '̈']
  | 'ý' => ['y', '́'] | 'ÿ' => ['y', '̈']
  | 'À' => ['A', '̀'] | 'Á' => ['A', '́'] | 'Â' => ['A', '̂']
  | 'Ã' => ['A', '̃'] | 'Ä' => ['A', '̈'] | 'Å' => ['A', '̊']
  | 'Ç' => ['C', '̧']
  | 'È' => ['E', '̀'] | 'É' => ['E', '́'] | 'Ê' => ['E', '̂']
  | 'Ë' => ['E', '̈']
  | 'Ì' => ['I', '̀'] | 'Í' => ['I', '́'] | 'Î' => ['I', '̂']
  | 'Ï' => ['I', '̈']
  | 'Ñ' => ['N', '̃']
  | 'Ò' => ['O', '̀'] | 'Ó' => ['O', '́'] | 'Ô' => ['O', '̂']
  | 'Õ' => ['O', '̃'] | 'Ö' => ['O', '̈']
  | 'Ù' => ['U', '̀'] | 'Ú' => ['U', '́'] | 'Û' => ['U', '̂']
  | 'Ü' => ['U', '̈']
  | 'Ý' => ['Y', '́']
  | _ => [c]

/-- Simple lowercasing covering ASCII `A-Z` and the Latin-1 uppercase block. -/
def jsToLower (c : Char) : Char :=
  if 'A' ≤ c && c ≤ 'Z' then Char.ofNat (c.toNat + 32)
  else if 0xC0 ≤ c.toNat && c.toNat ≤ 0xDE && c.toNat ≠ 0xD7 then Char.ofNat (c.toNat + 32)
  else c

/-- `normalize`: NFD-decompose, strip `[̀-ͯ]`, lowercase. -/
def normalize (s : String) : String :=
  String.mk (((s.data.flatMap nfdChar).filter (fun c => !isCombiningMark c)).map jsToLower)

/-! ## Substring containment (`String.prototype.includes`) -/

/-- `needle` occurs at the very front of `hay`. -/
def charsPrefixTest : List Char → List Char → Bool
  | [], _ => true
  | _ :: _, [] => false
  | a :: as, b :: bs => a = b && charsPrefixTest as bs

/-- `needle` occurs somewhere in `hay`. -/
def charsIncl (needle : List Char) : List Char → Bool
  | [] => charsPrefixTest needle []
  | c :: rest => charsPrefixTest needle (c :: rest) || charsIncl needle rest

/-- `hay.includes(needle)`. -/
def strIncludes (hay needle : String) : Bool :=
  charsIncl needle.data hay.data

/-! ## Seed data (`events` in `server.js`) -/

/-- First seed event, `evt_123`. -/
def evt123 : Event :=
  { id := "evt_123"
    title := "Conferência de Tecnologia 2025"
    startsAt := "2025-09-15T09:00:00-03:00"
    endsAt := "2025-09-15T18:00:00-03:00"
    location := "Auditório AMF"
    attendees :=
      [ { id := "att_001", name := "Ana Souza", email := "ana@exemplo.com",
          document := "123.456.789-00", checkedInAt := none },
        { id := "att_002", name := "José da Silva", email := "jose@exemplo.com",
          document := "987.654.321-00", checkedInAt := none },
        { id := "att_003", name := "Marcos Pereira", email := "marcos@exemplo.com",
          document := "111.222.333-44", checkedInAt := some "2025-09-15T09:32:12-03:00" } ] }

/-- Second seed event, `evt_456`. -/
def evt456 : Event :=
  { id := "evt_456"
    title := "Simpósio de IA Aplicada"
    startsAt := "2025-10-10T14:00:00-03:00"
    endsAt := "2025-10-10T19:00:00-03:00"
    location := "Centro de Inovação"
    attendees :=
      [ { id := "att_101", name := "Bianca Felix", email := "bianca@exemplo.com",
          document := "222.333.444-55", checkedInAt := none },
        { id := "att_102", name := "Felipe Nunes", email := "felipe@exemplo.com",
          document := "333.444.555-66", checkedInAt := none } ] }

/-- The in-memory store seeded at start-up. -/
def events : List Event := [evt123, evt456]

/-! ## Read-only handlers -/

/-- `findEvent`: first event whose id matches. -/
def findEvent (store : List Event) (eventId : String) : Option Event :=
  store.find? (fun e => e.id == eventId)

/-- `buildStats`: total, checked-in count (JS-truthy `checkedInAt`), absent. -/
def buildStats (event : Event) : Stats :=
  let total := event.attendees.length
  let checkedIn := (event.attendees.filter (fun a => jsTruthy a.checkedInAt)).length
  { total := total, checkedIn := checkedIn, absent := total - checkedIn }

/-- Projection of an event to the payload shape shared by `GET /events` and
`GET /events/:id`. -/
def eventPayload (e : Event) : EventPayload :=
  { id := e.id, title := e.title, startsAt := e.startsAt, endsAt := e.endsAt,
    location := e.location, stats := buildStats e }

/-- `GET /events`. -/
def listEvents (store : List Event) : List EventPayload :=
  store.map eventPayload

/-- `GET /events/:id`; `none` is the 404 response. -/
def getEvent (store : List Event) (eventId : String) : Option EventPayload :=
  (findEvent store eventId).map eventPayload

/-! ## Attendees list handler -/

/-- Query parameters of `GET /events/:id/attendees`; `none` = parameter absent. -/
structure AttendeesQuery where
  search : Option String
  page : Option String
  limit : Option String
deriving Repr, DecidableEq, Inhabited

/-- Response body of `GET /events/:id/attendees`; `page`/`limit` are `none`
when the computed value is `NaN` (serialized as `null`). -/
structure AttendeesResult where
  data : List Attendee
  page : Option Int
  limit : Option Int
  total : Nat
deriving Repr, DecidableEq, Inhabited

/-- Effective page number: `Math.max(parseInt(req.query.page || '1', 10), 1)`. -/
def effPage (q : Option String) : Option Int :=
  jsMax (parseInt10 (jsOrDefault q "1")) 1

/-- Effective page size: `Math.max(parseInt(req.query.limit || '20', 10), 1)`. -/
def effLimit (q : Option String) : Option Int :=
  jsMax (parseInt10 (jsOrDefault q "20")) 1

/-- The normalized search target: `normalize(name) + ' ' + normalize(email) +
' ' + normalize(document)`. -/
def searchTarget (a : Attendee) : String :=
  normalize a.name ++ " " ++ normalize a.email ++ " " ++ normalize a.document

/-- The filter step: kept only when the normalized search text is truthy
(non-empty). `search` is already normalized here, as in the handler. -/
def filteredAttendees (event : Event) (search : String) : List Attendee :=
  if search = "" then event.attendees
  else event.attendees.filter (fun a => strIncludes (searchTarget a) search)

/-- Lexicographic code-point comparison of character lists. -/
def cmpChars : List Char → List Char → Ordering
  | [], [] => .eq
  | [], _ :: _ => .lt
  | _ :: _, [] => .gt
  | a :: as, b :: bs =>
    if a.toNat < b.toNat then .lt
    else if b.toNat < a.toNat then .gt
    else cmpChars as bs

/-- The sort comparator `normalize(a.name).localeCompare(normalize(b.name))`,
modelled as code-point comparison (the default-locale collation agrees with it
on the normalized, lowercased, accent-free names the comparator receives). -/
def localeCmp (a b : String) : Ordering :=
  cmpChars a.data b.data

/-- The comparator's "does not come after" relation: a non-positive
`localeCompare` of the normalized names. -/
def nameLE (a b : Attendee) : Prop :=
  localeCmp (normalize a.name) (normalize b.name) ≠ .gt

instance : DecidableRel nameLE :=
  fun a b =>
    inferInstanceAs (Decidable (localeCmp (normalize a.name) (normalize b.name) ≠ .gt))

/-- `list.sort((a, b) => ...)`: stable sort by normalized name.  (JS engines
guarantee a stable sort; any stable sort by a total preorder produces the same
output, so the structurally recursive insertion sort is used.) -/
def sortByName (l : List Attendee) : List Attendee :=
  l.insertionSort nameLE

/-- The filtered, sorted attendee list of an event for a normalized search. -/
def sortedFiltered (event : Event) (search : String) : List Attendee :=
  sortByName (filteredAttendees event search)

/-- Pagination and response assembly, after `page`/`limit` have been computed
(`none` = `NaN`). -/
def attendeesPayload (event : Event) (search : String) (page limit : Option Int) :
    AttendeesResult :=
  let list := sortedFiltered event search
  let total := list.length
  let start := oMul (oSub page 1) limit
  let stop := oAdd start limit
  { data := jsSlice list start stop, page := page, limit := limit, total := total }

/-- `GET /events/:id/attendees`; `none` is the 404 response. -/
def listAttendees (store : List Event) (eventId : String) (q : AttendeesQuery) :
    Option AttendeesResult :=
  (findEvent store eventId).map (fun event =>
    attendeesPayload event (normalize (jsOrDefault q.search ""))
      (effPage q.page) (effLimit q.limit))

/-! ## Check-in handler -/

/-- Request body of `POST /events/:id/checkin`: either absent (`req.body` is
`undefined`/`null`) or an object whose `attendeeId` field may be missing. -/
inductive Body where
  | absent
  | obj (attendeeId : Option String)
deriving Repr, DecidableEq

/-- `const { attendeeId } = req.body || {}`. -/
def bodyAttendeeId : Body → Option String
  | .absent => none
  | .obj a => a

/-- Outcome of `POST /events/:id/checkin`, one constructor per HTTP status. -/
inductive CheckinResult where
  | notFound
  | badRequest
  | unprocessable
  | conflict (attendeeId : String) (checkedInAt : String)
  | created (attendeeId : String) (checkedInAt : String)
deriving Repr, DecidableEq

/-- Replace the first element satisfying `p` (the in-place mutation of the
object returned by `Array.prototype.find`). -/
def updateFirst {α : Type} (p : α → Bool) (f : α → α) : List α → List α
  | [] => []
  | x :: xs => if p x then f x :: xs else x :: updateFirst p f xs

/-- The store after the successful check-in mutation
`attendee.checkedInAt = nowISO()`. -/
def checkinStore (store : List Event) (eventId attendeeId now : String) : List Event :=
  updateFirst (fun e => e.id == eventId)
    (fun e =>
      let atts := updateFirst (fun a => a.id == attendeeId)
        (fun a => { a with checkedInAt := some now }) e.attendees
      { e with attendees := atts })
    store

/-- `POST /events/:id/checkin`: result plus the (possibly updated) store.
`now` is the value `nowISO()` would produce. -/
def checkin (store : List Event) (eventId : String) (body : Body) (now : String) :
    CheckinResult × List Event :=
  match findEvent store eventId with
  | none => (.notFound, store)
  | some event =>
    match bodyAttendeeId body with
    | none => (.badRequest, store)
    | some attendeeId =>
      if attendeeId = "" then (.badRequest, store)
      else
        match event.attendees.find? (fun a => a.id == attendeeId) with
        | none => (.unprocessable, store)
        | some attendee =>
          match attendee.checkedInAt with
          | some ts =>
            if ts = "" then
              (.created attendeeId now, checkinStore store eventId attendeeId now)
            else (.conflict attendeeId ts, store)
          | none =>
            (.created attendeeId now, checkinStore store eventId attendeeId now)

/-! ## The request dispatcher (state-transformer view of the server) -/

/-- Response body of `GET /health`. -/
structure HealthPayload where
  status : String
  time : String
deriving Repr, DecidableEq, Inhabited

/-- A request to one of the five routes. -/
inductive Request where
  | health (now : String)
  | listEvents
  | getEvent (id : String)
  | listAttendees (id : String) (q : AttendeesQuery)
  | checkin (id : String) (body : Body) (now : String)
deriving Repr, DecidableEq

/-- A response from one of the five routes. -/
inductive Response where
  | health (h : HealthPayload)
  | events (l : List EventPayload)
  | event (e : Option EventPayload)
  | attendees (r : Option AttendeesResult)
  | checkin (r : CheckinResult)
deriving Repr, DecidableEq

/-- One request-response step of the server: every route except check-in only
reads the store (the attendees route sorts a `slice()` copy). -/
def handle (req : Request) (store : List Event) : Response × List Event :=
  match req with
  | .health now => (.health { status := "ok", time := now }, store)
  | .listEvents => (.events (listEvents store), store)
  | .getEvent id => (.event (getEvent store id), store)
  | .listAttendees id q => (.attendees (listAttendees store id q), store)
  | .checkin id body now =>
    let (r, store') := checkin store id body now
    (.checkin r, store')

/-- The event that results from overwriting the `checkedInAt` field of the
attendee at position `k` (a record otherwise equal to `att`) with `now`:
statement vocabulary for the frame property of check-in. -/
def setCheckedIn (event : Event) (k : Nat) (att : Attendee) (now : String) : Event :=
  { event with attendees := event.attendees.set k { att with checkedInAt := some now } }

/-- The response of page 2, limit 2 of `evt_123`'s attendees without search
(used by concrete witnesses below). -/
def attRes23 : AttendeesResult :=
  { data := [{ id := "att_003", name := "Marcos Pereira", email := "marcos@exemplo.com",
               document := "111.222.333-44", checkedInAt := some "2025-09-15T09:32:12-03:00" }],
    page := some 2, limit := some 2, total := 3 }

/-! ## Basic lemmas -/

theorem cmpChars_ne_gt_trans : ∀ (as bs cs : List Char),
    cmpChars as bs ≠ .gt → cmpChars bs cs ≠ .gt → cmpChars as cs ≠ .gt := by
  intro as
  induction as with
  | nil => intro bs cs _ _; cases cs <;> simp [cmpChars]
  | cons a as ih =>
    intro bs cs h1 h2
    cases bs with
    | nil => simp [cmpChars] at h1
    | cons b bs =>
      cases cs with
      | nil => simp [cmpChars] at h2
      | cons c cs =>
        simp only [cmpChars] at h1 h2 ⊢
        split_ifs at h1 h2 ⊢ <;>
          first
            | decide
            | omega
            | exact ih bs cs h1 h2
            | exact absurd rfl h1
            | exact absurd rfl h2

theorem cmpChars_ne_gt_total : ∀ (as bs : List Char),
    cmpChars as bs ≠ .gt ∨ cmpChars bs as ≠ .gt := by
  intro as
  induction as with
  | nil => intro bs; left; cases bs <;> simp [cmpChars]
  | cons a as ih =>
    intro bs
    cases bs with
    | nil => right; simp [cmpChars]
    | cons b bs =>
      simp only [cmpChars]
      split_ifs <;>
        first
          | (left; decide)
          | (right; decide)
          | omega
          | exact ih bs

theorem jsTruthy_eq_isSome_of_ne_empty {o : Option String} (h : o ≠ some "") :
    jsTruthy o = o.isSome := by
  cases o with
  | none => rfl
  | some s =>
    simp only [jsTruthy, Option.isSome_some, decide_eq_true_eq]
    intro hs
    exact h (by rw [hs])

theorem charsIncl_nil (hay : List Char) : charsIncl [] hay = true := by
  cases hay <;> simp [charsIncl, charsPrefixTest]

theorem jsOrDefault_empty (s : String) : jsOrDefault (some s) "" = s := by
  by_cases h : s = "" <;> simp [jsOrDefault, h]

theorem effPage_ge_one {q : Option String} {p : Int} (h : effPage q = some p) : 1 ≤ p := by
  simp only [effPage, jsMax, Option.map_eq_some'] at h
  rcases h with ⟨v, -, rfl⟩
  exact le_max_right v 1

theorem effLimit_ge_one {q : Option String} {l : Int} (h : effLimit q = some l) : 1 ≤ l := by
  simp only [effLimit, jsMax, Option.map_eq_some'] at h
  rcases h with ⟨v, -, rfl⟩
  exact le_max_right v 1

theorem take_min_length {α : Type} (xs : List α) (n : Nat) :
    xs.take (min n xs.length) = xs.take n := by
  rcases Nat.le_total n xs.length with h | h
  · rw [Nat.min_eq_left h]
  · rw [Nat.min_eq_right h, List.take_length, List.take_of_length_le h]

theorem drop_min_of_le {α : Type} (X : List α) (S len : Nat) (hX : X.length ≤ len) :
    X.drop (min S len) = X.drop S := by
  rcases Nat.le_total S len with h | h
  · rw [Nat.min_eq_left h]
  · rw [Nat.min_eq_right h, List.drop_eq_nil_of_le hX,
      List.drop_eq_nil_of_le (le_trans hX h)]

/-- For non-negative endpoints `s` and `s + l`, JS `slice` is drop-then-take. -/
theorem jsSlice_eq_drop_take {α : Type} (xs : List α) (s l : Int) (hs : 0 ≤ s) (hl : 0 ≤ l) :
    jsSlice xs (some s) (some (s + l)) = (xs.drop s.toNat).take l.toNat := by
  have hs' : ¬ s < 0 := by omega
  have hsl' : ¬ s + l < 0 := by omega
  have hadd : (s + l).toNat = s.toNat + l.toNat := by omega
  simp only [jsSlice, sliceIndex, toIntOrZero, Option.getD_some, if_neg hs', if_neg hsl', hadd]
  rw [List.take_drop, take_min_length]
  exact drop_min_of_le _ _ _ (by simp)

/-! ## C1: check-in timestamps are immutable once set -/

/-- C1: once an attendee's check-in timestamp is non-null, a later check-in
call targeting that attendee (the first event matching the id, the first
attendee matching the id) returns Conflict echoing the stored timestamp and
returns the store unchanged.  The two side conditions record that identifiers
and timestamps produced by the program are never the empty string (JS
truthiness would otherwise take the missing-field / not-checked-in branch). -/
theorem checkin_conflict_monotone (store : List Event) (eid aid now ts : String)
    (event : Event) (att : Attendee)
    (he : findEvent store eid = some event)
    (ha : event.attendees.find? (fun a => a.id == aid) = some att)
    (hts : att.checkedInAt = some ts) (hne : ts ≠ "") (haid : aid ≠ "") :
    checkin store eid (.obj (some aid)) now = (.conflict aid ts, store) := by
  simp [checkin, he, bodyAttendeeId, haid, ha, hts, hne]

/-- Witness for C1 at the seed store: attendee `att_003` of `evt_123` is
already checked in, and a fresh check-in call conflicts with the stored
timestamp. -/
theorem checkin_conflict_monotone_witness :
    checkin events "evt_123" (.obj (some "att_003")) "2026-01-01T00:00:00Z" =
      (.conflict "att_003" "2025-09-15T09:32:12-03:00", events) :=
  checkin_conflict_monotone events "evt_123" "att_003" "2026-01-01T00:00:00Z"
    "2025-09-15T09:32:12-03:00" evt123
    { id := "att_003", name := "Marcos Pereira", email := "marcos@exemplo.com",
      document := "111.222.333-44", checkedInAt := some "2025-09-15T09:32:12-03:00" }
    (by decide) (by decide) rfl (by decide) (by decide)

/-! ## C2: missing attendee id -/

/-- C2 counterexample: a check-in request with no attendee id on an unknown
event returns NotFound, not BadRequest — the event lookup precedes the body
check. -/
theorem checkin_unknown_event_missing_id :
    (checkin events "evt_999" (.obj none) "2026-01-01T00:00:00Z").fst = .notFound ∧
    (checkin events "evt_999" (.obj none) "2026-01-01T00:00:00Z").fst ≠ .badRequest := by
  decide

/-- C2 (amended): for every check-in request on an existing event whose body
carries no attendee id (or an empty one), the operation fails with BadRequest
and the store is unchanged. -/
theorem checkin_missing_attendee_id (store : List Event) (eid now : String) (body : Body)
    (event : Event) (he : findEvent store eid = some event)
    (hb : bodyAttendeeId body = none ∨ bodyAttendeeId body = some "") :
    checkin store eid body now = (.badRequest, store) := by
  rcases hb with hb | hb <;> simp [checkin, he, hb]

/-- Witness for C2's amended theorem at the seed store. -/
theorem checkin_missing_attendee_id_witness :
    checkin events "evt_123" (.obj none) "2026-01-01T00:00:00Z" = (.badRequest, events) :=
  checkin_missing_attendee_id events "evt_123" "2026-01-01T00:00:00Z" (.obj none) evt123
    (by decide) (Or.inl rfl)

/-! ## C3: page and limit parsing -/

/-- C3 counterexample: a non-numeric `page` string propagates `NaN` (modelled
as `none`): the effective page is not an integer clamped to at least 1, and at
the API level the response carries `page: null` and an empty data array with
the true total. -/
theorem page_nonnumeric_not_clamped :
    (¬ ∃ n : Int, effPage (some "abc") = some n ∧ 1 ≤ n) ∧
    listAttendees events "evt_123" { search := none, page := some "abc", limit := none } =
      some { data := [], page := none, limit := some 20, total := 3 } := by
  constructor
  · rintro ⟨n, hn, -⟩
    rw [show effPage (some "abc") = none from by decide] at hn
    cases hn
  · decide

/-- C3 (amended): `page` and `limit` default to 1 and 20 when the parameter is
absent or empty; when `parseInt` succeeds the effective value is the parsed
integer clamped to a minimum of 1; when `parseInt` fails (non-numeric input)
the effective value is `NaN`, not an integer. -/
theorem page_limit_clamped :
    effPage none = some 1 ∧ effLimit none = some 20 ∧
    effPage (some "") = some 1 ∧ effLimit (some "") = some 20 ∧
    (∀ s n, parseInt10 s = some n → s ≠ "" →
      effPage (some s) = some (max n 1) ∧ effLimit (some s) = some (max n 1) ∧
      (1 : Int) ≤ max n 1) ∧
    (∀ s, parseInt10 s = none → s ≠ "" →
      effPage (some s) = none ∧ effLimit (some s) = none) := by
  refine ⟨by decide, by decide, by decide, by decide, ?_, ?_⟩
  · intro s n hp hs
    simp [effPage, effLimit, jsOrDefault, jsMax, hs, hp, le_max_right]
  · intro s hp hs
    simp [effPage, effLimit, jsOrDefault, jsMax, hs, hp]

/-- Witness for C3's amended theorem: a negative numeric string is clamped to
1, a non-numeric string yields `NaN`, an absent limit defaults to 20. -/
theorem page_limit_clamped_witness :
    effPage (some " -3kg") = some (max (-3) 1) ∧ effPage (some "x2") = none ∧
    effLimit none = some 20 :=
  ⟨(page_limit_clamped.2.2.2.2.1 " -3kg" (-3) (by decide) (by decide)).1,
   (page_limit_clamped.2.2.2.2.2 "x2" (by decide) (by decide)).1,
   page_limit_clamped.2.1⟩

/-! ## C8: stats -/

/-- C8: for every event, `buildStats` returns the attendee count as `total`,
the number of attendees with a non-null (JS-truthy) timestamp as `checkedIn`
— which coincides with the non-null count whenever no stored timestamp is the
empty string, as in every state the program can produce — and the counts
satisfy `checkedIn + absent = total`; the stats embedded by the list-events
and get-event operations are exactly `buildStats` of a stored event. -/
theorem stats_correct (store : List Event) (eid : String) (event : Event) :
    (buildStats event).total = event.attendees.length ∧
    ((∀ a ∈ event.attendees, a.checkedInAt ≠ some "") →
      (buildStats event).checkedIn =
        (event.attendees.filter (fun a => a.checkedInAt.isSome)).length) ∧
    (buildStats event).checkedIn + (buildStats event).absent = (buildStats event).total ∧
    (∀ p ∈ listEvents store, ∃ e ∈ store, p.stats = buildStats e) ∧
    (∀ p, getEvent store eid = some p →
      ∃ e, findEvent store eid = some e ∧ p.stats = buildStats e) := by
  refine ⟨rfl, ?_, ?_, ?_, ?_⟩
  · intro h
    simp only [buildStats]
    congr 1
    apply List.filter_congr
    intro a ha
    rw [jsTruthy_eq_isSome_of_ne_empty (h a ha)]
  · have hle := List.length_filter_le (fun a => jsTruthy a.checkedInAt) event.attendees
    simp only [buildStats]
    omega
  · intro p hp
    rcases List.mem_map.mp hp with ⟨e, he, rfl⟩
    exact ⟨e, he, rfl⟩
  · intro p hp
    rcases Option.map_eq_some'.mp hp with ⟨e, he, rfl⟩
    exact ⟨e, he, rfl⟩

/-- Witness for C8 at the seed store: `evt_123` has stats
`{total := 3, checkedIn := 1, absent := 2}`. -/
theorem stats_correct_witness :
    buildStats evt123 = { total := 3, checkedIn := 1, absent := 2 } ∧
    (buildStats evt123).checkedIn =
      (evt123.attendees.filter (fun a => a.checkedInAt.isSome)).length :=
  ⟨by decide, (stats_correct events "evt_123" evt123).2.1 (by decide)⟩

/-! ## C10: absent request body -/

/-- C10: a check-in request on an existing event whose body is absent
(`req.body` is `undefined` or `null`) is handled without crashing: the
destructuring of `req.body || \x7b\x7d` yields no attendee id, the request
fails with BadRequest, and the store is unchanged. -/
theorem checkin_absent_body (store : List Event) (eid now : String) (event : Event)
    (he : findEvent store eid = some event) :
    checkin store eid .absent now = (.badRequest, store) := by
  simp [checkin, he, bodyAttendeeId]

/-- Witness for C10 at the seed store. -/
theorem checkin_absent_body_witness :
    checkin events "evt_456" .absent "2026-01-01T00:00:00Z" = (.badRequest, events) :=
  checkin_absent_body events "evt_456" "2026-01-01T00:00:00Z" evt456 (by decide)

/-! ## C5: search semantics -/

/-- C5: the filter step keeps exactly the attendees whose normalized
name-email-document concatenation contains the normalized search text as a
substring (trivially all of them when the normalized text is empty, since the
empty string is a substring of everything), and consequently two search
strings with the same normalization produce identical responses. -/
theorem search_filter_correct (event : Event) (s : String) :
    (∀ a, a ∈ filteredAttendees event (normalize s) ↔
      a ∈ event.attendees ∧ strIncludes (searchTarget a) (normalize s) = true) ∧
    (∀ s₂ store eid p l, normalize s = normalize s₂ →
      listAttendees store eid { search := some s, page := p, limit := l } =
        listAttendees store eid { search := some s₂, page := p, limit := l }) := by
  constructor
  · intro a
    by_cases h : normalize s = ""
    · simp [filteredAttendees, h, strIncludes, charsIncl_nil]
    · simp [filteredAttendees, h, List.mem_filter]
  · intro s₂ store eid p l hn
    simp only [listAttendees, jsOrDefault_empty, hn]

/-- Witness for C5: searching `"José"` and `"jose"` on the seed event give the
same response. -/
theorem search_filter_correct_witness :
    listAttendees events "evt_123" { search := some "José", page := none, limit := none } =
      listAttendees events "evt_123" { search := some "jose", page := none, limit := none } :=
  (search_filter_correct evt123 "José").2 "jose" events "evt_123" none none (by decide)

/-! ## C4: pagination arithmetic -/

/-- C4: on an existing event, when page and limit parse to numbers, the
returned data is the slice of the filtered, sorted list starting at offset
`(page - 1) * limit` of length at most `limit`, the total is the number of
matches before pagination, page and limit are echoed, and a page whose offset
is at or beyond the total yields an empty data array with the true total. -/
theorem pagination_correct (store : List Event) (eid : String) (q : AttendeesQuery)
    (event : Event) (p l : Int) (r : AttendeesResult)
    (he : findEvent store eid = some event)
    (hp : effPage q.page = some p) (hl : effLimit q.limit = some l)
    (hr : listAttendees store eid q = some r) :
    r.data = ((sortedFiltered event (normalize (jsOrDefault q.search ""))).drop
        ((p - 1) * l).toNat).take l.toNat ∧
    r.total = (sortedFiltered event (normalize (jsOrDefault q.search ""))).length ∧
    r.page = some p ∧ r.limit = some l ∧
    r.data.length ≤ l.toNat ∧
    ((r.total : Int) ≤ (p - 1) * l → r.data = []) := by
  have hp1 : 1 ≤ p := effPage_ge_one hp
  have hl1 : 1 ≤ l := effLimit_ge_one hl
  have hs0 : 0 ≤ (p - 1) * l := mul_nonneg (by omega) (by omega)
  rw [listAttendees, he, Option.map_some'] at hr
  obtain rfl : r = _ := (Option.some_injective _ hr.symm)
  set list := sortedFiltered event (normalize (jsOrDefault q.search "")) with hlist
  have hdata : (attendeesPayload event (normalize (jsOrDefault q.search ""))
      (effPage q.page) (effLimit q.limit)).data =
      (list.drop ((p - 1) * l).toNat).take l.toNat := by
    simp only [attendeesPayload, hp, hl, oSub, oMul, oAdd, Option.map_some', ← hlist]
    exact jsSlice_eq_drop_take list ((p - 1) * l) l hs0 (by omega)
  refine ⟨hdata, rfl, ?_, ?_, ?_, ?_⟩
  · simp [attendeesPayload, hp]
  · simp [attendeesPayload, hl]
  · rw [hdata]
    simp
  · intro hbeyond
    have htot : ((sortedFiltered event (normalize (jsOrDefault q.search ""))).length : Int) ≤
        (p - 1) * l := by
      simpa [attendeesPayload] using hbeyond
    rw [← hlist] at htot
    have : list.length ≤ ((p - 1) * l).toNat := by omega
    rw [hdata, List.drop_eq_nil_of_le this, List.take_nil]

/-- Witness for C4: page 2 with limit 2 on the seed event is the slice at
offset 2 of the sorted attendee list. -/
theorem pagination_correct_witness :
    attRes23.data = ((sortedFiltered evt123 (normalize (jsOrDefault none ""))).drop
        (((2 : Int) - 1) * 2).toNat).take (2 : Int).toNat :=
  (pagination_correct events "evt_123" { search := none, page := some "2", limit := some "2" }
    evt123 2 2 attRes23 (by decide) (by decide) (by decide) (by decide)).1

/-! ## C6: sortedness of every returned page -/

/-- C6: for every attendees-list request on an existing event — any search,
page and limit values, numeric or not — the returned data array is pairwise
non-decreasing by normalized name under the comparator. -/
theorem attendees_sorted (store : List Event) (eid : String) (q : AttendeesQuery)
    (r : AttendeesResult) (hr : listAttendees store eid q = some r) :
    r.data.Pairwise nameLE := by
  haveI : IsTrans Attendee nameLE := ⟨fun _ _ _ => cmpChars_ne_gt_trans _ _ _⟩
  haveI : IsTotal Attendee nameLE := ⟨fun _ _ => cmpChars_ne_gt_total _ _⟩
  rw [listAttendees] at hr
  rcases Option.map_eq_some'.mp hr with ⟨event, -, rfl⟩
  have hsorted : (sortedFiltered event (normalize (jsOrDefault q.search ""))).Pairwise nameLE :=
    List.sorted_insertionSort nameLE _
  simp only [attendeesPayload, jsSlice]
  exact List.Pairwise.sublist ((List.drop_sublist _ _).trans (List.take_sublist _ _)) hsorted

/-- Witness for C6: the full attendee page of the seed event is sorted. -/
theorem attendees_sorted_witness :
    ((listAttendees events "evt_123" { search := none, page := none, limit := none }).getD
        default).data.Pairwise nameLE :=
  attendees_sorted events "evt_123" { search := none, page := none, limit := none } _ (by decide)

/-! ## C7: pages partition the filtered, sorted list -/

theorem ceil_mul_ge (len L : Nat) (hL : 0 < L) : len ≤ ((len + L - 1) / L) * L := by
  have h := Nat.div_add_mod (len + L - 1) L
  have hmod := Nat.mod_lt (len + L - 1) hL
  have hcomm : L * ((len + L - 1) / L) = ((len + L - 1) / L) * L := Nat.mul_comm _ _
  omega

theorem take_mul_join {α : Type} (xs : List α) (L : Nat) : ∀ n,
    ((List.range n).map (fun i => (xs.drop (i * L)).take L)).flatten = xs.take (n * L) := by
  intro n
  induction n with
  | zero => simp
  | succ n ih =>
    rw [List.range_succ, List.map_append, List.flatten_append, ih]
    have hX : xs.take (n * L) = (xs.take (n * L + L)).take (n * L) := by
      rw [List.take_take, Nat.min_eq_left (Nat.le_add_right _ _)]
    simp only [List.map_cons, List.map_nil, List.flatten_cons, List.flatten_nil,
      List.append_nil]
    rw [List.take_drop, hX, List.take_append_drop, Nat.succ_mul]

/-- C7: on an existing event, with any limit whose parse succeeded (so `l ≥ 1`
after clamping), every returned page — numeric page or not — holds at most `l`
records, and the concatenation of the data arrays of pages `1` through
`⌈total / l⌉` is exactly the filtered, sorted attendee list: no duplicates, no
omissions. -/
theorem pages_partition (store : List Event) (eid : String) (sq ls : Option String)
    (l : Int) (event : Event)
    (he : findEvent store eid = some event) (hl : effLimit ls = some l) :
    (∀ ps r, listAttendees store eid { search := sq, page := ps, limit := ls } = some r →
      r.data.length ≤ l.toNat) ∧
    ((List.range (((sortedFiltered event (normalize (jsOrDefault sq ""))).length + l.toNat - 1) /
        l.toNat)).map (fun (i : Nat) =>
        (attendeesPayload event (normalize (jsOrDefault sq "")) (some ((i : Int) + 1))
          (some l)).data)).flatten =
      sortedFiltered event (normalize (jsOrDefault sq "")) := by
  have hl1 : 1 ≤ l := effLimit_ge_one hl
  set s := normalize (jsOrDefault sq "") with hs
  set list := sortedFiltered event s with hlist
  constructor
  · intro ps r hr
    rw [listAttendees, he, Option.map_some'] at hr
    obtain rfl : r = _ := Option.some_injective _ hr.symm
    show (attendeesPayload event s (effPage ps) (effLimit ls)).data.length ≤ l.toNat
    rw [hl]
    rcases hps : effPage ps with _ | p
    · simp [attendeesPayload, oSub, oMul, oAdd, jsSlice, sliceIndex, toIntOrZero]
    · have hp1 : 1 ≤ p := effPage_ge_one hps
      have hdata : (attendeesPayload event s (some p) (some l)).data =
          (list.drop ((p - 1) * l).toNat).take l.toNat := by
        simp only [attendeesPayload, oSub, oMul, oAdd, Option.map_some', ← hlist]
        exact jsSlice_eq_drop_take list ((p - 1) * l) l
          (mul_nonneg (by omega) (by omega)) (by omega)
      rw [hdata]
      simp
  · have hpage : ∀ i : Nat,
        (attendeesPayload event s (some ((i : Int) + 1)) (some l)).data =
          (list.drop (i * l.toNat)).take l.toNat := by
      intro i
      have hstart : ((i : Int) + 1 - 1) * l = ((i * l.toNat : Nat) : Int) := by
        push_cast [Int.toNat_of_nonneg (by omega : (0 : Int) ≤ l)]
        ring
      have hnn : (0 : Int) ≤ ((i : Int) + 1 - 1) * l :=
        mul_nonneg (by omega) (by omega)
      simp only [attendeesPayload, oSub, oMul, oAdd, Option.map_some', ← hlist]
      rw [jsSlice_eq_drop_take list _ l hnn (by omega), hstart, Int.toNat_ofNat]
    calc ((List.range ((list.length + l.toNat - 1) / l.toNat)).map (fun (i : Nat) =>
            (attendeesPayload event s (some ((i : Int) + 1)) (some l)).data)).flatten
        = ((List.range ((list.length + l.toNat - 1) / l.toNat)).map (fun i =>
            (list.drop (i * l.toNat)).take l.toNat)).flatten := by
          exact congrArg _ (List.map_congr_left (fun i _ => hpage i))
      _ = list.take (((list.length + l.toNat - 1) / l.toNat) * l.toNat) :=
          take_mul_join list l.toNat _
      _ = list := List.take_of_length_le (ceil_mul_ge list.length l.toNat (by omega))

/-- Witness for C7 on the seed event with limit 2: the two pages of size 2
concatenate to the whole sorted attendee list. -/
theorem pages_partition_witness :
    ((List.range (((sortedFiltered evt123 (normalize (jsOrDefault none ""))).length +
        (2 : Int).toNat - 1) / (2 : Int).toNat)).map (fun (i : Nat) =>
        (attendeesPayload evt123 (normalize (jsOrDefault none "")) (some ((i : Int) + 1))
          (some 2)).data)).flatten =
      sortedFiltered evt123 (normalize (jsOrDefault none "")) :=
  (pages_partition events "evt_123" none (some "2") 2 evt123 (by decide) (by decide)).2

/-! ## C9: check-in is the only mutation, and it is minimal -/

theorem updateFirst_eq_set {α : Type} (p : α → Bool) (f : α → α) :
    ∀ (l : List α) (x : α), l.find? p = some x →
      ∃ i, l[i]? = some x ∧ updateFirst p f l = l.set i (f x) := by
  intro l
  induction l with
  | nil => intro x hx; simp [List.find?] at hx
  | cons a as ih =>
    intro x hx
    by_cases hpa : p a
    · rw [List.find?_cons_of_pos _ hpa] at hx
      obtain rfl : a = x := by simpa using hx
      exact ⟨0, by simp, by simp [updateFirst, hpa]⟩
    · rw [List.find?_cons_of_neg _ hpa] at hx
      obtain ⟨i, hget, hupd⟩ := ih x hx
      refine ⟨i + 1, by simpa using hget, ?_⟩
      simp [updateFirst, hpa, hupd]

/-- C9: the four query routes return the store unchanged (the attendees route
sorts a `slice()` copy, never the stored list), and a check-in only changes
the store when it succeeds, in which case the new store is exactly the old one
with the target attendee's `checkedInAt` — previously not set — replaced by
the current time: every other field, attendee and event is untouched and the
stored order is preserved. -/
theorem frame_effects (store : List Event) :
    (∀ now, (handle (.health now) store).2 = store) ∧
    (handle .listEvents store).2 = store ∧
    (∀ id, (handle (.getEvent id) store).2 = store) ∧
    (∀ id q, (handle (.listAttendees id q) store).2 = store) ∧
    (∀ eid body now,
      ((∀ aid ts, (checkin store eid body now).1 ≠ .created aid ts) →
        (checkin store eid body now).2 = store) ∧
      (∀ aid, (checkin store eid body now).1 = .created aid now →
        ∃ j event k att, store[j]? = some event ∧ findEvent store eid = some event ∧
          event.attendees[k]? = some att ∧
          event.attendees.find? (fun a => a.id == aid) = some att ∧
          jsTruthy att.checkedInAt = false ∧
          (checkin store eid body now).2 = store.set j (setCheckedIn event k att now))) := by
  refine ⟨fun _ => rfl, rfl, fun _ => rfl, fun _ _ => rfl, ?_⟩
  intro eid body now
  rcases hfe : findEvent store eid with _ | event
  · exact ⟨fun _ => by simp [checkin, hfe], fun aid hc => by simp [checkin, hfe] at hc⟩
  rcases hba : bodyAttendeeId body with _ | aid₀
  · exact ⟨fun _ => by simp [checkin, hfe, hba], fun aid hc => by simp [checkin, hfe, hba] at hc⟩
  by_cases h0 : aid₀ = ""
  · exact ⟨fun _ => by simp [checkin, hfe, hba, h0],
           fun aid hc => by simp [checkin, hfe, hba, h0] at hc⟩
  rcases hfa : event.attendees.find? (fun a => a.id == aid₀) with _ | att
  · exact ⟨fun _ => by simp [checkin, hfe, hba, h0, hfa],
           fun aid hc => by simp [checkin, hfe, hba, h0, hfa] at hc⟩
  have hmut : jsTruthy att.checkedInAt = false →
      ∃ j event' k att', store[j]? = some event' ∧ findEvent store eid = some event' ∧
        event'.attendees[k]? = some att' ∧
        event'.attendees.find? (fun a => a.id == aid₀) = some att' ∧
        jsTruthy att'.checkedInAt = false ∧
        checkinStore store eid aid₀ now = store.set j (setCheckedIn event' k att' now) := by
    intro htr
    have hfe' : store.find? (fun e => e.id == eid) = some event := hfe
    obtain ⟨j, hj, houter⟩ := updateFirst_eq_set (fun e => e.id == eid)
      (fun e =>
        let atts := updateFirst (fun a => a.id == aid₀)
          (fun a => { a with checkedInAt := some now }) e.attendees
        { e with attendees := atts }) store event hfe'
    obtain ⟨k, hk, hinner⟩ := updateFirst_eq_set (fun a => a.id == aid₀)
      (fun a => { a with checkedInAt := some now }) event.attendees att hfa
    refine ⟨j, event, k, att, hj, hfe, hk, hfa, htr, ?_⟩
    rw [checkinStore, houter]
    simp only [setCheckedIn, ← hinner]
  rcases hts : att.checkedInAt with _ | ts
  · refine ⟨fun h => absurd (show (checkin store eid body now).1 = .created aid₀ now from by
        simp [checkin, hfe, hba, h0, hfa, hts]) (h aid₀ now),
      fun aid hc => ?_⟩
    have haid : aid = aid₀ := by
      simp [checkin, hfe, hba, h0, hfa, hts] at hc
      exact hc.symm
    have h2 : (checkin store eid body now).2 = checkinStore store eid aid₀ now := by
      simp [checkin, hfe, hba, h0, hfa, hts]
    rw [h2, haid, ← hfe]
    exact hmut (by simp [jsTruthy, hts])
  by_cases hts0 : ts = ""
  · subst hts0
    refine ⟨fun h => absurd (show (checkin store eid body now).1 = .created aid₀ now from by
        simp [checkin, hfe, hba, h0, hfa, hts]) (h aid₀ now),
      fun aid hc => ?_⟩
    have haid : aid = aid₀ := by
      simp [checkin, hfe, hba, h0, hfa, hts] at hc
      exact hc.symm
    have h2 : (checkin store eid body now).2 = checkinStore store eid aid₀ now := by
      simp [checkin, hfe, hba, h0, hfa, hts]
    rw [h2, haid, ← hfe]
    exact hmut (by simp [jsTruthy, hts])
  · exact ⟨fun _ => by simp [checkin, hfe, hba, h0, hfa, hts, hts0],
      fun aid hc => by simp [checkin, hfe, hba, h0, hfa, hts, hts0] at hc⟩

/-- Witness for C9: checking in `att_101` on the seed store mutates exactly
that attendee's timestamp, via `List.set` at its position. -/
theorem frame_effects_witness :
    ∃ j event k att, events[j]? = some event ∧ findEvent events "evt_456" = some event ∧
      event.attendees[k]? = some att ∧
      event.attendees.find? (fun a => a.id == "att_101") = some att ∧
      jsTruthy att.checkedInAt = false ∧
      (checkin events "evt_456" (.obj (some "att_101")) "2026-01-01T00:00:00Z").2 =
        events.set j (setCheckedIn event k att "2026-01-01T00:00:00Z") :=
  ((frame_effects events).2.2.2.2 "evt_456" (.obj (some "att_101"))
    "2026-01-01T00:00:00Z").2 "att_101" (by decide)

end PartyWay
